import Mathlib

/-!
Verification of the paginated-connection-fetcher specification for the
`python-facebook` page API (`pyfacebook/api/facebook/resource/page.py`).

Shallow embedding notes:
* `page.py` is embedded directly (identifier resolution in `get_info`, the
  `get_feed` family and its wrappers).
* The transport collaborators that are not part of the excerpt — the
  pagination loop `get_full_connections`, the field normalizer
  `enf_comma_separated`, the constant field sets and the `LibraryError`
  exception — are modelled from the specification, as marked on each
  definition.
* HTTP requests are represented by the request descriptors the code would
  issue (`GetObjectCall`, `ConnectionsCall`); the server is represented by
  the sequence of pages it would serve for the successive cursors.
-/

/-- Python truthiness of an `Optional[str]` value: `None` and `""` are falsy,
any non-empty string is truthy (`if page_id:` in the source). -/
def pyTruthy : Option String → Bool
  | none => false
  | some s => s != ""

/-- A field value as accepted by the page API: a comma separated string, a
list of names, or a tuple of names (`Union[str, list, tuple]`). -/
inductive FieldsValue where
  | str (s : String)
  | list (xs : List String)
  | tuple (xs : List String)
  deriving DecidableEq, Repr

/-- Joining a sequence of field names with commas, preserving order and
duplicates. -/
def comma_join : List String → String
  | [] => ""
  | [x] => x
  | x :: y :: rest => x ++ "," ++ comma_join (y :: rest)

/-- Modelled from the spec: `enf_comma_separated`
(`pyfacebook/utils/params_utils.py`, not part of the excerpt).  Spec §4.2:
if the value is a sequence, join the elements with a comma preserving input
order, duplicates included; if the value is already a string, return it
unchanged.  The `field` name argument is only used for error reporting in
the source and does not influence the result. -/
def enf_comma_separated (field : String) (value : FieldsValue) : String :=
  match field, value with
  | _, .str s => s
  | _, .list xs => comma_join xs
  | _, .tuple xs => comma_join xs

/-- Modelled from the spec: the default public field set
`const.PAGE_PUBLIC_FIELDS` (`pyfacebook/utils/constant.py`, not part of the
excerpt).  The spec only says a "domain default field set" is substituted
when `fields` is null; its exact contents are irrelevant to every claim. -/
def PAGE_PUBLIC_FIELDS : FieldsValue := .list ["id", "name", "username"]

/-- Modelled from the spec: `const.POST_PUBLIC_FIELDS` (not part of the
excerpt); exact contents irrelevant to every claim. -/
def POST_PUBLIC_FIELDS : List String := ["id", "message", "created_time"]

/-- Modelled from the spec: `const.POST_CONNECTIONS_SUMMERY_FIELDS` (not
part of the excerpt); exact contents irrelevant to every claim. -/
def POST_CONNECTIONS_SUMMERY_FIELDS : List String := ["comments.summary(true)"]

/-- Modelled from the spec: the error taxonomy of §7 — `InvalidParameter`
(caller supplied insufficient identifying parameters, detected before any
request is issued) and `RemoteRequestError` (propagated from the
transport). -/
inductive ErrorKind where
  | invalidParameter
  | remoteRequestError
  deriving DecidableEq, Repr

/-- Modelled from the spec: the `LibraryError` raised by the source
(`pyfacebook/exceptions.py`, not part of the excerpt), carrying its error
kind per the §7 taxonomy and the message dictionary's message string. -/
structure LibraryError where
  kind : ErrorKind
  message : String
  deriving DecidableEq, Repr

/-- The paging block of one connection page: a mapping possibly containing
`next`/`previous` cursor URLs (spec §3, ConnectionPage). -/
structure Paging where
  next : Option String
  previous : Option String
  deriving DecidableEq, Repr

/-- One HTTP response unit of a connection: its ordered items and its paging
block (spec §3, ConnectionPage). -/
structure ConnectionPage (α : Type) where
  items : List α
  paging : Paging
  deriving DecidableEq, Repr

/-- The outcome of a full connection fetch: the accumulated items, the
paging block of the last page actually fetched, and the number of page
requests the loop issued. -/
structure FetchResult (α : Type) where
  items : List α
  paging : Paging
  requests : Nat
  deriving DecidableEq, Repr

/-- The paging value reported when no page was fetched at all (never reached
under the well-formedness hypotheses used below). -/
def emptyPaging : Paging := { next := none, previous := none }

/-- Has the accumulator reached a non-null target count? (spec §4.1 step 3,
first bullet; a null count never triggers this check). -/
def countReached (count : Option Nat) (len : Nat) : Bool :=
  match count with
  | some n => decide (n ≤ len)
  | none => false

/-- Modelled from the spec: the page-accumulation loop of
`get_full_connections` (spec §4.1; the implementation lives in the base
client, not in the excerpt).  The list argument is the sequence of pages the
server serves: its head answers the pending request, each later element
answers the request addressed by its predecessor's `next` cursor.  After
each page is fetched its items are appended, then the termination checks of
§4.1 step 3 run in order: target count reached (truncate to `count`), empty
page (end-of-data guard), no usable `next` cursor.  `requests` counts the
pages actually fetched. -/
def fetchFrom {α : Type} (count : Option Nat) (acc : List α) :
    List (ConnectionPage α) → FetchResult α
  | [] => { items := acc, paging := emptyPaging, requests := 0 }
  | page :: rest =>
    let acc2 := acc ++ page.items
    if countReached count acc2.length then
      { items := acc2.take (count.getD 0), paging := page.paging, requests := 1 }
    else if page.items.isEmpty then
      { items := acc2, paging := page.paging, requests := 1 }
    else if page.paging.next.isNone then
      { items := acc2, paging := page.paging, requests := 1 }
    else
      let r := fetchFrom count (acc ++ page.items) rest
      { items := r.items, paging := r.paging, requests := r.requests + 1 }

/-- Modelled from the spec: `client.get_full_connections` run against a
server that would serve the given sequence of pages, starting from an empty
accumulator (spec §4.1). -/
def get_full_connections {α : Type} (count : Option Nat)
    (pages : List (ConnectionPage α)) : FetchResult α :=
  fetchFrom count [] pages

/-- All items of a served page sequence, in order. -/
def joinItems {α : Type} (pages : List (ConnectionPage α)) : List α :=
  (pages.map ConnectionPage.items).flatten

/-- A served page sequence is a well-formed cursor chain when every page
that is followed by a further page is non-empty and carries a `next`
cursor (so the later pages are actually reachable). -/
def wfChain {α : Type} : List (ConnectionPage α) → Bool
  | [] => true
  | [_] => true
  | page :: next_page :: rest =>
    !page.items.isEmpty && page.paging.next.isSome &&
      wfChain (next_page :: rest)

/-- The request descriptor passed to `client.get_object` by `get_info`
(`page.py` lines 45–48): the resolved target id and the normalized fields
string. -/
structure GetObjectCall where
  object_id : String
  fields : String
  deriving DecidableEq, Repr

/-- `FacebookPage.get_info` (`page.py` lines 15–52), embedded up to the
request it issues: resolve the target (`page_id` if truthy, else `username`
if truthy, else raise `LibraryError`), substitute the default field set when
`fields` is null, and build the `get_object` request.  An `error` result
means the call fails before any request is issued; the subsequent transport
call and the `Page.new_from_json_dict` mapping are boundary collaborators. -/
def get_info_request (page_id username : Option String)
    (fields : Option FieldsValue) : Except LibraryError GetObjectCall :=
  if pyTruthy page_id then
    .ok { object_id := page_id.getD "",
          fields := enf_comma_separated "fields" (fields.getD PAGE_PUBLIC_FIELDS) }
  else if pyTruthy username then
    .ok { object_id := username.getD "",
          fields := enf_comma_separated "fields" (fields.getD PAGE_PUBLIC_FIELDS) }
  else
    .error { kind := .invalidParameter,
             message := "Specify at least one of page_id or username" }

/-- The request descriptor passed to `client.get_full_connections` by
`get_feed` (`page.py` lines 117–125). -/
structure ConnectionsCall where
  object_id : String
  connection : String
  count : Option Nat
  limit : Option Nat
  fields : String
  since : Option String
  until_ : Option String
  deriving DecidableEq, Repr

/-- The `get_full_connections` request built by `get_feed` (`page.py` lines
114–125): default field set substituted when `fields` is null, fields
normalized, all other parameters passed through with `source` as the
connection name. -/
def feed_call (page_id : String) (fields : Option FieldsValue)
    (since until_ : Option String) (count limit : Option Nat)
    (source : String) : ConnectionsCall :=
  let f := match fields with
    | none => FieldsValue.list (POST_PUBLIC_FIELDS ++ POST_CONNECTIONS_SUMMERY_FIELDS)
    | some v => v
  { object_id := page_id, connection := source, count := count, limit := limit,
    fields := enf_comma_separated "fields" f, since := since, until_ := until_ }

/-- The value returned by the `get_feed` family: either the raw JSON feed
records with paging (`return_json=True`) or the typed posts with paging
(`return_json=False`).  `J` is the raw-record type, `P` the typed `Post`. -/
inductive FeedReturn (J P : Type) where
  | json (feeds : List J) (paging : Paging)
  | typed (posts : List P) (paging : Paging)
  deriving DecidableEq, Repr

/-- `FacebookPage.get_feed` (`page.py` lines 86–129).  `client` is the
transport collaborator `get_full_connections` (abstract: any function from
the request descriptor to a `(feeds, paging)` pair), `parse` is the opaque
`Post.new_from_json_dict` hook.  The fetch result is returned raw when
`return_json` is true, otherwise each record is mapped through `parse`. -/
def get_feed {J P : Type} (client : ConnectionsCall → List J × Paging)
    (parse : J → P) (page_id : String) (fields : Option FieldsValue)
    (since until_ : Option String) (count limit : Option Nat)
    (source : String) (return_json : Bool) : FeedReturn J P :=
  let r := client (feed_call page_id fields since until_ count limit source)
  if return_json then .json r.1 r.2 else .typed (r.1.map parse) r.2

/-- `FacebookPage.get_posts` (`page.py` lines 131–165): delegates to
`get_feed` with `source="posts"`. -/
def get_posts {J P : Type} (client : ConnectionsCall → List J × Paging)
    (parse : J → P) (page_id : String) (fields : Option FieldsValue)
    (since until_ : Option String) (count limit : Option Nat)
    (return_json : Bool) : FeedReturn J P :=
  get_feed client parse page_id fields since until_ count limit "posts" return_json

/-- `FacebookPage.get_published_posts` (`page.py` lines 167–201): delegates
to `get_feed` with `source="published_posts"`. -/
def get_published_posts {J P : Type} (client : ConnectionsCall → List J × Paging)
    (parse : J → P) (page_id : String) (fields : Option FieldsValue)
    (since until_ : Option String) (count limit : Option Nat)
    (return_json : Bool) : FeedReturn J P :=
  get_feed client parse page_id fields since until_ count limit "published_posts" return_json

/-- `FacebookPage.get_tagged_posts` (`page.py` lines 203–237): delegates to
`get_feed` with `source="tagged"`. -/
def get_tagged_posts {J P : Type} (client : ConnectionsCall → List J × Paging)
    (parse : J → P) (page_id : String) (fields : Option FieldsValue)
    (since until_ : Option String) (count limit : Option Nat)
    (return_json : Bool) : FeedReturn J P :=
  get_feed client parse page_id fields since until_ count limit "tagged" return_json

/-- Default of the `count` parameter of `get_feed` (`page.py` line 92:
`count: Optional[int] = 10`). -/
def GET_FEED_DEFAULT_COUNT : Option Nat := some 10

/-- Default of the `limit` parameter of `get_feed` (`page.py` line 93:
`limit: Optional[int] = 10`). -/
def GET_FEED_DEFAULT_LIMIT : Option Nat := some 10

/-- Defaults of `count` in `get_posts`, `get_published_posts`,
`get_tagged_posts` (`page.py` lines 137, 173, 209: `count: Optional[int] =
10` in each). -/
def GET_POSTS_DEFAULT_COUNT : Option Nat := some 10

/-- Defaults of `limit` in `get_posts`, `get_published_posts`,
`get_tagged_posts` (`page.py` lines 138, 174, 210: `limit: Optional[int] =
10` in each). -/
def GET_POSTS_DEFAULT_LIMIT : Option Nat := some 10

theorem joinItems_nil {α : Type} : joinItems ([] : List (ConnectionPage α)) = [] := rfl

theorem joinItems_cons {α : Type} (p : ConnectionPage α)
    (ps : List (ConnectionPage α)) :
    joinItems (p :: ps) = p.items ++ joinItems ps := by
  simp [joinItems]

/-- Unfolding equation of `fetchFrom` on a non-empty served sequence. -/
theorem fetchFrom_cons {α : Type} (count : Option Nat) (acc : List α)
    (page : ConnectionPage α) (rest : List (ConnectionPage α)) :
    fetchFrom count acc (page :: rest) =
      if countReached count (acc ++ page.items).length then
        { items := (acc ++ page.items).take (count.getD 0),
          paging := page.paging, requests := 1 }
      else if page.items.isEmpty then
        { items := acc ++ page.items, paging := page.paging, requests := 1 }
      else if page.paging.next.isNone then
        { items := acc ++ page.items, paging := page.paging, requests := 1 }
      else
        { items := (fetchFrom count (acc ++ page.items) rest).items,
          paging := (fetchFrom count (acc ++ page.items) rest).paging,
          requests := (fetchFrom count (acc ++ page.items) rest).requests + 1 } :=
  rfl

theorem length_joinItems_cons {α : Type} (p : ConnectionPage α)
    (ps : List (ConnectionPage α)) :
    (joinItems (p :: ps)).length = p.items.length + (joinItems ps).length := by
  rw [joinItems_cons]; simp

/-- Core lemma for the `count`-bounded fetch: starting from an accumulator
still short of the target `N`, if the served chain is well formed and holds
enough further items, the loop returns the first `N` of the accumulated
items and the paging of the page `r` at which the target was reached, and
the pages before page `r` had not yet reached the target. -/
theorem fetchFrom_count_reached {α : Type} (N : Nat) :
    ∀ (pages : List (ConnectionPage α)) (acc : List α),
      wfChain pages = true → acc.length < N →
      N ≤ acc.length + (joinItems pages).length →
      ∃ r p, pages[r - 1]? = some p ∧ 1 ≤ r ∧
        fetchFrom (some N) acc pages =
          { items := (acc ++ joinItems pages).take N, paging := p.paging,
            requests := r } ∧
        (r = 1 ∨ (acc ++ joinItems (pages.take (r - 1))).length < N) := by
  intro pages
  induction pages with
  | nil =>
    intro acc hwf hacc htot
    rw [joinItems_nil] at htot
    simp at htot
    omega
  | cons page rest ih =>
    intro acc hwf hacc htot
    have hlaccp : (acc ++ page.items).length = acc.length + page.items.length := by
      simp
    have hljoin : (joinItems (page :: rest)).length
        = page.items.length + (joinItems rest).length :=
      length_joinItems_cons page rest
    by_cases hge : N ≤ (acc ++ page.items).length
    · have hcr : countReached (some N) (acc ++ page.items).length = true := by
        simp [countReached]
        omega
      refine ⟨1, page, by simp, le_refl 1, ?_, Or.inl rfl⟩
      rw [fetchFrom_cons, if_pos hcr, joinItems_cons, ← List.append_assoc,
        List.take_append_of_le_length hge]
      rfl
    · have hlt : (acc ++ page.items).length < N := by omega
      have hcr : countReached (some N) (acc ++ page.items).length = false := by
        simp [countReached]
        omega
      cases rest with
      | nil =>
        exfalso
        rw [joinItems_cons, joinItems_nil] at htot
        simp at htot
        omega
      | cons next_page rest2 =>
        simp only [wfChain, Bool.and_eq_true, Bool.not_eq_true'] at hwf
        obtain ⟨⟨hemp, hsome⟩, hwfr⟩ := hwf
        have hnn : page.paging.next.isNone = false := by
          cases hnx : page.paging.next with
          | none => rw [hnx] at hsome; simp at hsome
          | some c => simp
        have hljoin2 : (joinItems (next_page :: rest2)).length
            = next_page.items.length + (joinItems rest2).length :=
          length_joinItems_cons next_page rest2
        have htot2 : N ≤ (acc ++ page.items).length
            + (joinItems (next_page :: rest2)).length := by
          omega
        obtain ⟨r, p, hget, hr1, heq, hprev⟩ :=
          ih (acc ++ page.items) hwfr hlt htot2
        obtain ⟨r2, rfl⟩ : ∃ r2, r = r2 + 1 := ⟨r - 1, by omega⟩
        simp only [Nat.add_sub_cancel] at hget hprev
        refine ⟨r2 + 2, p, ?_, by omega, ?_, ?_⟩
        · show (page :: next_page :: rest2)[r2 + 1]? = some p
          simpa using hget
        · rw [fetchFrom_cons]
          simp only [hcr, hemp, hnn, Bool.false_eq_true, if_false]
          rw [heq]
          simp [joinItems_cons, List.append_assoc]
        · right
          show (acc ++ joinItems ((page :: next_page :: rest2).take (r2 + 1))).length < N
          rw [List.take_succ_cons, joinItems_cons, ← List.append_assoc]
          rcases hprev with h1 | h2
          · have hr20 : r2 = 0 := by omega
            subst hr20
            simpa using hlt
          · exact h2

/-- C1: for every fetch with a non-null `count = N` where `N` is less than
the total number of available items (served along a well-formed cursor
chain), the fetcher returns exactly the first `N` accumulated items —
truncated, never more than `N` — together with the paging block of the page
`r` that caused the stop (the pages before it had not reached `N`). -/
theorem c1_count_truncates_fetch (α : Type) (pages : List (ConnectionPage α))
    (N : Nat) (hwf : wfChain pages = true)
    (hN : N < (joinItems pages).length) :
    ∃ r p, pages[r - 1]? = some p ∧ 1 ≤ r ∧
      get_full_connections (some N) pages =
        { items := (joinItems pages).take N, paging := p.paging,
          requests := r } ∧
      ((joinItems pages).take N).length = N ∧
      (r = 1 ∨ (joinItems (pages.take (r - 1))).length < N) := by
  cases N with
  | zero =>
    cases pages with
    | nil => simp [joinItems_nil] at hN
    | cons page rest =>
      refine ⟨1, page, by simp, le_refl 1, ?_, by simp, Or.inl rfl⟩
      have hcr : countReached (some 0) (([] : List α) ++ page.items).length = true := by
        simp [countReached]
      show fetchFrom (some 0) [] (page :: rest) = _
      rw [fetchFrom_cons, if_pos hcr]
      simp
  | succ n =>
    obtain ⟨r, p, hget, hr1, heq, hprev⟩ :=
      fetchFrom_count_reached (n + 1) pages [] hwf (by simp)
        (by simpa using hN.le)
    refine ⟨r, p, hget, hr1, ?_, ?_, ?_⟩
    · show fetchFrom (some (n + 1)) [] pages = _
      rw [heq]
      simp
    · rw [List.length_take]
      omega
    · rcases hprev with h | h
      · exact Or.inl h
      · exact Or.inr (by simpa using h)

def c1Pages : List (ConnectionPage Nat) :=
  [{ items := [1, 2, 3, 4, 5], paging := { next := some "cursor2", previous := none } },
   { items := [6, 7, 8, 9], paging := { next := none, previous := some "cursor1" } }]

theorem c1_count_truncates_fetch_witness :
    wfChain c1Pages = true ∧ 3 < (joinItems c1Pages).length ∧
    (∃ r p, c1Pages[r - 1]? = some p ∧ 1 ≤ r ∧
      get_full_connections (some 3) c1Pages =
        { items := (joinItems c1Pages).take 3, paging := p.paging,
          requests := r } ∧
      ((joinItems c1Pages).take 3).length = 3 ∧
      (r = 1 ∨ (joinItems (c1Pages.take (r - 1))).length < 3)) :=
  ⟨by decide, by decide,
    c1_count_truncates_fetch Nat c1Pages 3 (by decide) (by decide)⟩

/-- Core lemma for the `count = None` fetch: the loop walks the entire
well-formed served chain whose last page signals end-of-data, appending
every page's items, issuing one request per page, and reports the last
page's paging block. -/
theorem fetchFrom_fetch_all {α : Type} :
    ∀ (pages : List (ConnectionPage α)) (acc : List α)
      (pLast : ConnectionPage α),
      pages.getLast? = some pLast → wfChain pages = true →
      (pLast.paging.next = none ∨ pLast.items = []) →
      fetchFrom none acc pages =
        { items := acc ++ joinItems pages, paging := pLast.paging,
          requests := pages.length } := by
  intro pages
  induction pages with
  | nil =>
    intro acc pLast hlast _ _
    simp at hlast
  | cons page rest ih =>
    intro acc pLast hlast hwf hend
    cases rest with
    | nil =>
      have hp : pLast = page := by simpa using hlast.symm
      subst hp
      rw [fetchFrom_cons]
      rw [if_neg (show ¬countReached none (acc ++ pLast.items).length = true by
        simp [countReached])]
      rcases hend with hnext | hempty
      · by_cases hemp : pLast.items.isEmpty = true
        · rw [if_pos hemp]
          have hi : pLast.items = [] := by simpa using hemp
          simp [joinItems_cons, joinItems_nil, hi]
        · rw [if_neg hemp,
            if_pos (show pLast.paging.next.isNone = true by simp [hnext])]
          simp [joinItems_cons, joinItems_nil]
      · rw [if_pos (show pLast.items.isEmpty = true by simp [hempty])]
        simp [joinItems_cons, joinItems_nil]
    | cons next_page rest2 =>
      simp only [wfChain, Bool.and_eq_true, Bool.not_eq_true'] at hwf
      obtain ⟨⟨hemp, hsome⟩, hwfr⟩ := hwf
      have hnn : page.paging.next.isNone = false := by
        cases hnx : page.paging.next with
        | none => rw [hnx] at hsome; simp at hsome
        | some c => simp
      have hlast2 : (next_page :: rest2).getLast? = some pLast := by
        simpa using hlast
      have hrec := ih (acc ++ page.items) pLast hlast2 hwfr hend
      rw [fetchFrom_cons]
      simp only [countReached, hemp, hnn, Bool.false_eq_true, if_false]
      rw [hrec]
      simp [joinItems_cons, List.append_assoc]

/-- C2: for every fetch with `count = None` along a well-formed served
chain whose last page reports no usable `next` cursor (or is empty), the
fetcher returns the concatenation of the items of every served page,
issues exactly one request per page, and stops with that last page's
paging block. -/
theorem c2_fetch_all_pages (α : Type) (pages : List (ConnectionPage α))
    (pLast : ConnectionPage α) (hlast : pages.getLast? = some pLast)
    (hwf : wfChain pages = true)
    (hend : pLast.paging.next = none ∨ pLast.items = []) :
    get_full_connections none pages =
      { items := joinItems pages, paging := pLast.paging,
        requests := pages.length } := by
  have := fetchFrom_fetch_all pages [] pLast hlast hwf hend
  show fetchFrom none [] pages = _
  rw [this]
  simp

def c2Pages : List (ConnectionPage Nat) :=
  [{ items := [1, 2, 3, 4, 5], paging := { next := some "after5", previous := none } },
   { items := [6, 7, 8, 9], paging := { next := none, previous := some "before6" } }]

def c2Last : ConnectionPage Nat :=
  { items := [6, 7, 8, 9], paging := { next := none, previous := some "before6" } }

theorem c2_fetch_all_pages_witness :
    c2Pages.getLast? = some c2Last ∧ wfChain c2Pages = true ∧
    (c2Last.paging.next = none ∨ c2Last.items = []) ∧
    get_full_connections none c2Pages =
      { items := joinItems c2Pages, paging := c2Last.paging,
        requests := c2Pages.length } :=
  ⟨by decide, by decide, Or.inl (by decide),
    c2_fetch_all_pages Nat c2Pages c2Last (by decide) (by decide)
      (Or.inl (by decide))⟩

/-- C3: for every fetch, if a fetched page's item list is empty, the loop
terminates on that page — only the one request that fetched it is issued,
no matter how many further pages the server could serve — and its paging
block is reported, even when the accumulator is still below a non-null
`count`. -/
theorem c3_empty_page_stops (α : Type) (count : Option Nat) (acc : List α)
    (page : ConnectionPage α) (rest : List (ConnectionPage α))
    (hempty : page.items = []) :
    (fetchFrom count acc (page :: rest)).requests = 1 ∧
    (fetchFrom count acc (page :: rest)).paging = page.paging := by
  rw [fetchFrom_cons]
  by_cases hcr : countReached count (acc ++ page.items).length = true
  · rw [if_pos hcr]
    exact ⟨rfl, rfl⟩
  · rw [if_neg hcr,
      if_pos (show page.items.isEmpty = true by simp [hempty])]
    exact ⟨rfl, rfl⟩

def c3Page : ConnectionPage Nat :=
  { items := [], paging := { next := some "claims-more", previous := none } }

def c3Rest : List (ConnectionPage Nat) :=
  [{ items := [7, 8], paging := { next := none, previous := none } }]

theorem c3_empty_page_stops_witness :
    c3Page.items = [] ∧
    (fetchFrom (some 5) [1, 2] (c3Page :: c3Rest)).requests = 1 ∧
    (fetchFrom (some 5) [1, 2] (c3Page :: c3Rest)).paging = c3Page.paging :=
  ⟨rfl, c3_empty_page_stops Nat (some 5) [1, 2] c3Page c3Rest rfl⟩

/-- C4: `get_info` resolves its target as "page_id if present, else
username if present" (a present identifier being a supplied non-empty
string, the code's own notion of presence — see C9 for empty strings), and
when both identifiers are absent it fails with the `InvalidParameter`-kind
`LibraryError` before any request is issued: the result is an `error`, so
no `get_object` request descriptor is produced. -/
theorem c4_get_info_target_resolution (page_id username : Option String)
    (fields : Option FieldsValue) :
    (∀ s, page_id = some s → s ≠ "" →
      get_info_request page_id username fields =
        .ok { object_id := s,
              fields := enf_comma_separated "fields"
                (fields.getD PAGE_PUBLIC_FIELDS) }) ∧
    (page_id = none → ∀ u, username = some u → u ≠ "" →
      get_info_request page_id username fields =
        .ok { object_id := u,
              fields := enf_comma_separated "fields"
                (fields.getD PAGE_PUBLIC_FIELDS) }) ∧
    (page_id = none → username = none →
      get_info_request page_id username fields =
        .error { kind := .invalidParameter,
                 message := "Specify at least one of page_id or username" }) := by
  refine ⟨?_, ?_, ?_⟩
  · rintro s rfl hs
    have ht : pyTruthy (some s) = true := by
      simp [pyTruthy]
      exact hs
    simp [get_info_request, ht]
  · rintro rfl u rfl hu
    have ht : pyTruthy (some u) = true := by
      simp [pyTruthy]
      exact hu
    have hn : pyTruthy (none : Option String) = false := rfl
    simp [get_info_request, hn, ht]
  · rintro rfl rfl
    simp [get_info_request, pyTruthy]

theorem c4_get_info_target_resolution_witness :
    (get_info_request (some "page123") (some "user456") none =
      .ok { object_id := "page123",
            fields := enf_comma_separated "fields" PAGE_PUBLIC_FIELDS }) ∧
    (get_info_request none (some "user456") none =
      .ok { object_id := "user456",
            fields := enf_comma_separated "fields" PAGE_PUBLIC_FIELDS }) ∧
    (get_info_request none none none =
      .error { kind := .invalidParameter,
               message := "Specify at least one of page_id or username" }) :=
  ⟨(c4_get_info_target_resolution (some "page123") (some "user456") none).1
      "page123" rfl (by decide),
   (c4_get_info_target_resolution none (some "user456") none).2.1 rfl
      "user456" rfl (by decide),
   (c4_get_info_target_resolution none none none).2.2 rfl rfl⟩

/-- C9: identifier resolution in `get_info` tests Python truthiness, not
presence: an empty-string `page_id` is skipped exactly like an absent one,
so the request targets a non-empty `username`, and two empty strings fail
with the `InvalidParameter`-kind error. -/
theorem c9_truthiness_not_presence (u : String) (hu : u ≠ "")
    (fields : Option FieldsValue) :
    get_info_request (some "") (some u) fields =
      .ok { object_id := u,
            fields := enf_comma_separated "fields"
              (fields.getD PAGE_PUBLIC_FIELDS) } ∧
    get_info_request (some "") (some "") fields =
      .error { kind := .invalidParameter,
               message := "Specify at least one of page_id or username" } := by
  constructor
  · have ht : pyTruthy (some u) = true := by
      simp [pyTruthy]
      exact hu
    have he : pyTruthy (some "") = false := by decide
    simp [get_info_request, he, ht]
  · simp [get_info_request, pyTruthy]

theorem c9_truthiness_not_presence_witness :
    "user456" ≠ "" ∧
    (get_info_request (some "") (some "user456") none =
      .ok { object_id := "user456",
            fields := enf_comma_separated "fields" PAGE_PUBLIC_FIELDS } ∧
     get_info_request (some "") (some "") none =
      .error { kind := .invalidParameter,
               message := "Specify at least one of page_id or username" }) :=
  ⟨by decide, c9_truthiness_not_presence "user456" (by decide) none⟩

/-- C6: field normalization is idempotent on string inputs: a value that is
already a string is returned unchanged, hence normalizing a normalized
string gives it back. -/
theorem c6_normalize_idempotent (field s : String) :
    enf_comma_separated field (.str s) = s ∧
    enf_comma_separated field
        (.str (enf_comma_separated field (.str s))) =
      enf_comma_separated field (.str s) :=
  ⟨rfl, rfl⟩

/-- C7: a sequence of field names is joined with commas preserving input
order and without deduplication (`[a, b, c]` yields `"a,b,c"`, `[a, a]`
yields `"a,a"`), and the canonical string is the same whether the input was
a list, a tuple, or the already-joined string. -/
theorem c7_normalize_canonical (field a b c : String) (xs : List String) :
    enf_comma_separated field (.list [a, b, c]) = a ++ "," ++ b ++ "," ++ c ∧
    enf_comma_separated field (.list [a, a]) = a ++ "," ++ a ∧
    enf_comma_separated field (.tuple xs) =
      enf_comma_separated field (.list xs) ∧
    enf_comma_separated field
        (.str (enf_comma_separated field (.list xs))) =
      enf_comma_separated field (.list xs) := by
  refine ⟨?_, rfl, rfl, rfl⟩
  show comma_join [a, b, c] = _
  rw [comma_join, comma_join, comma_join]
  simp [String.append_assoc]

/-- The items a fetch returns are always an initial segment of the raw
items served by the pages, in order: the loop only appends page items and
truncates, it never transforms a record. -/
theorem fetchFrom_items_take {α : Type} (count : Option Nat) :
    ∀ (pages : List (ConnectionPage α)) (acc : List α),
      ∃ k, (fetchFrom count acc pages).items = (acc ++ joinItems pages).take k := by
  intro pages
  induction pages with
  | nil =>
    intro acc
    exact ⟨acc.length, by simp [fetchFrom, joinItems_nil]⟩
  | cons page rest ih =>
    intro acc
    rw [fetchFrom_cons]
    by_cases hcr : countReached count (acc ++ page.items).length = true
    · cases count with
      | none => simp [countReached] at hcr
      | some n =>
        rw [if_pos hcr]
        have hn : n ≤ (acc ++ page.items).length := by
          simpa [countReached] using hcr
        refine ⟨n, ?_⟩
        rw [joinItems_cons, ← List.append_assoc,
          List.take_append_of_le_length hn]
        rfl
    · rw [if_neg hcr]
      by_cases hemp : page.items.isEmpty = true
      · rw [if_pos hemp]
        refine ⟨(acc ++ page.items).length, ?_⟩
        rw [joinItems_cons, ← List.append_assoc,
          List.take_append_of_le_length (le_refl _), List.take_length]
      · rw [if_neg hemp]
        by_cases hnn : page.paging.next.isNone = true
        · rw [if_pos hnn]
          refine ⟨(acc ++ page.items).length, ?_⟩
          rw [joinItems_cons, ← List.append_assoc,
            List.take_append_of_le_length (le_refl _), List.take_length]
        · rw [if_neg hnn]
          obtain ⟨k, hk⟩ := ih (acc ++ page.items)
          refine ⟨k, ?_⟩
          show (fetchFrom count (acc ++ page.items) rest).items = _
          rw [hk, joinItems_cons, ← List.append_assoc]

/-- C5: for every result `(feeds, paging)` produced by the underlying
connection fetch, `get_feed` with `return_json=False` returns exactly the
element-wise `Post.new_from_json_dict` mapping of the feeds list that
`return_json=True` would return, with the identical paging block in both
cases; the fetch itself never performs the mapping — its items are always
an untransformed initial segment of the raw served records. -/
theorem c5_return_json_refinement (J P : Type)
    (client : ConnectionsCall → List J × Paging) (parse : J → P)
    (page_id : String) (fields : Option FieldsValue)
    (since until_ : Option String) (count limit : Option Nat)
    (source : String) :
    get_feed client parse page_id fields since until_ count limit source false =
      .typed
        ((client (feed_call page_id fields since until_ count limit source)).1.map parse)
        (client (feed_call page_id fields since until_ count limit source)).2 ∧
    get_feed client parse page_id fields since until_ count limit source true =
      .json (client (feed_call page_id fields since until_ count limit source)).1
        (client (feed_call page_id fields since until_ count limit source)).2 ∧
    ∀ (α : Type) (cnt : Option Nat) (pages : List (ConnectionPage α)),
      ∃ k, (get_full_connections cnt pages).items = (joinItems pages).take k := by
  refine ⟨rfl, rfl, ?_⟩
  intro α cnt pages
  obtain ⟨k, hk⟩ := fetchFrom_items_take cnt pages []
  exact ⟨k, by simpa [get_full_connections] using hk⟩

/-- C8: `get_posts`, `get_published_posts` and `get_tagged_posts` return,
on every argument tuple, exactly what `get_feed` returns on the same
arguments with `source` fixed to `"posts"`, `"published_posts"` and
`"tagged"` respectively; they add no behavior of their own. -/
theorem c8_wrappers_delegate (J P : Type)
    (client : ConnectionsCall → List J × Paging) (parse : J → P)
    (page_id : String) (fields : Option FieldsValue)
    (since until_ : Option String) (count limit : Option Nat)
    (return_json : Bool) :
    get_posts client parse page_id fields since until_ count limit return_json =
      get_feed client parse page_id fields since until_ count limit "posts"
        return_json ∧
    get_published_posts client parse page_id fields since until_ count limit
        return_json =
      get_feed client parse page_id fields since until_ count limit
        "published_posts" return_json ∧
    get_tagged_posts client parse page_id fields since until_ count limit
        return_json =
      get_feed client parse page_id fields since until_ count limit "tagged"
        return_json :=
  ⟨rfl, rfl, rfl⟩

/-- A `count`-bounded fetch never returns more than `count` items. -/
theorem fetchFrom_items_le {α : Type} (n : Nat) :
    ∀ (pages : List (ConnectionPage α)) (acc : List α),
      acc.length ≤ n → (fetchFrom (some n) acc pages).items.length ≤ n := by
  intro pages
  induction pages with
  | nil =>
    intro acc h
    simpa [fetchFrom] using h
  | cons page rest ih =>
    intro acc h
    rw [fetchFrom_cons]
    by_cases hcr : countReached (some n) (acc ++ page.items).length = true
    · rw [if_pos hcr]
      show ((acc ++ page.items).take n).length ≤ n
      rw [List.length_take]
      omega
    · have hlt : (acc ++ page.items).length < n := by
        have hlen : (acc ++ page.items).length = acc.length + page.items.length := by
          simp
        simp [countReached] at hcr
        omega
      rw [if_neg hcr]
      by_cases hemp : page.items.isEmpty = true
      · rw [if_pos hemp]
        exact hlt.le
      · rw [if_neg hemp]
        by_cases hnn : page.paging.next.isNone = true
        · rw [if_pos hnn]
          exact hlt.le
        · rw [if_neg hnn]
          show (fetchFrom (some n) (acc ++ page.items) rest).items.length ≤ n
          exact ih (acc ++ page.items) hlt.le

/-- C10: when the `get_feed` family is called without specifying `count`
and `limit`, the fetch is performed with `count = 10` and `limit = 10`
(the Python defaults of all four functions), so by default at most 10
items are returned: the default is neither "fetch all pages" nor the
server-side page-size default. -/
theorem c10_default_count_limit :
    GET_FEED_DEFAULT_COUNT = some 10 ∧ GET_FEED_DEFAULT_LIMIT = some 10 ∧
    GET_POSTS_DEFAULT_COUNT = some 10 ∧ GET_POSTS_DEFAULT_LIMIT = some 10 ∧
    (∀ (page_id : String) (fields : Option FieldsValue)
        (since until_ : Option String) (source : String),
      (feed_call page_id fields since until_ GET_FEED_DEFAULT_COUNT
          GET_FEED_DEFAULT_LIMIT source).count = some 10 ∧
      (feed_call page_id fields since until_ GET_FEED_DEFAULT_COUNT
          GET_FEED_DEFAULT_LIMIT source).limit = some 10) ∧
    ∀ (α : Type) (pages : List (ConnectionPage α)),
      (get_full_connections GET_FEED_DEFAULT_COUNT pages).items.length ≤ 10 := by
  refine ⟨rfl, rfl, rfl, rfl, fun _ _ _ _ _ => ⟨rfl, rfl⟩, ?_⟩
  intro α pages
  have h := fetchFrom_items_le 10 pages [] (by simp)
  simpa [get_full_connections, GET_FEED_DEFAULT_COUNT] using h
